import Mathlib

/-!
Verification of the `RWLock` reader-writer lock from `src/states.rs`
(a lock living inside a memory-mapped file, shared across processes).

The shallow embedding models the shared 32-bit atomic word (`chunk`) and the
per-instance shadow byte (`current_lock`) as natural numbers, with the u32/u8
wrap-arounds made explicit (`% 2^32`, `% 2^8`).  Each Rust method becomes a
pure function from the lock state to a result paired with the successor state;
the `fetch_update` compare-and-swap retry loops are modelled by their
uncontended behaviour: the closure is evaluated once on the current value and
the update commits (every claim under check concerns the sequentially
consistent interleaving semantics, where each atomic operation is one step).
-/

set_option maxRecDepth 100000

namespace WinMMF

/-- Modelled from the spec: the error taxonomy of `src/err.rs`, which is not
part of the sources under check; `src/states.rs` only constructs the variants
`Uninitialized`, `WriteLocked`, `ReadLocked`, `MaxReaders`, `GeneralFailure`
and `LockViolation`, which are exactly the conditions the spec lists. -/
inductive Error where
  | GeneralFailure
  | Uninitialized
  | MaxReaders
  | ReadLocked
  | WriteLocked
  | LockViolation
deriving DecidableEq, Repr

deriving instance DecidableEq for Except

/-- `MMFResult<T>` from `src/err.rs`: `Result<T, Error>`. -/
abbrev MMFResult (α : Type) := Except Error α

/-- The state a single `RWLock` instance can see: the shared 32-bit word
behind the pointer (`chunk`, one `AtomicU32`) and this instance's private
shadow byte (`current_lock`, one `AtomicU8`). -/
structure RWLock where
  chunk : Nat
  current_lock : Nat
deriving DecidableEq, Repr

namespace RWLock

/-- `RWLock::INITIALIZE_MASK`: `255 << 24`, the top byte of the shared word. -/
def INITIALIZE_MASK : Nat := 255 <<< 24

/-- `RWLock::WRITE_LOCK_MASK`: `0b1 << 31`, the top bit of the shared word. -/
def WRITE_LOCK_MASK : Nat := 1 <<< 31

/-- `RWLock::READ_LOCK_MASK`: `!INITIALIZE_MASK` as a u32, the low 24 bits. -/
def READ_LOCK_MASK : Nat := INITIALIZE_MASK ^^^ 0xFFFFFFFF

/-- `RWLock::HOLDING_W`: bit 7 of the shadow byte, set while this instance
holds the write lock. -/
def HOLDING_W : Nat := 0b10000000

/-- `RWLock::HOLDING_R`: `!HOLDING_W` as a u8, the low 7 bits of the shadow
byte, counting the read locks this instance holds. -/
def HOLDING_R : Nat := HOLDING_W ^^^ 0xFF

/-- `RWLock::from_existing(pointer)`: adopts the four bytes behind the pointer
as the shared word (here: the u32 value `mem` currently stored there) and
starts the private shadow byte at `AtomicU8::new(0)`. -/
def from_existing (mem : Nat) : RWLock :=
  { chunk := mem % 2^32, current_lock := 0 }

/-- `RWLock::from_raw(pointer)`: `from_existing` followed by storing
`INITIALIZE_MASK` into the shared word. -/
def from_raw (mem : Nat) : RWLock :=
  { from_existing mem with chunk := INITIALIZE_MASK }

/-- `RWLock::set_init`: stores 0 into the shared word and 0 into the shadow
byte (clearing every lock and marking the word initialized). -/
def set_init (_s : RWLock) : RWLock :=
  { chunk := 0, current_lock := 0 }

/-- `MMFLock::initialized for RWLock`:
`(chunk & INITIALIZE_MASK) < INITIALIZE_MASK || current_lock < 255`. -/
def initialized (s : RWLock) : Bool :=
  decide (s.chunk &&& INITIALIZE_MASK < INITIALIZE_MASK) || decide (s.current_lock < 255)

/-- `MMFLock::readlocked for RWLock`:
`(chunk & READ_LOCK_MASK) > 0 || (current_lock & HOLDING_R) > 0`. -/
def readlocked (s : RWLock) : Bool :=
  decide (s.chunk &&& READ_LOCK_MASK > 0) || decide (s.current_lock &&& HOLDING_R > 0)

/-- `MMFLock::writelocked for RWLock`:
`(chunk & WRITE_LOCK_MASK) == WRITE_LOCK_MASK || (current_lock & HOLDING_W) == HOLDING_W`. -/
def writelocked (s : RWLock) : Bool :=
  decide (s.chunk &&& WRITE_LOCK_MASK = WRITE_LOCK_MASK)
    || decide (s.current_lock &&& HOLDING_W = HOLDING_W)

/-- `MMFLock::locked for RWLock`:
`(chunk & INITIALIZE_MASK) < INITIALIZE_MASK || current_lock > 0`. -/
def locked (s : RWLock) : Bool :=
  decide (s.chunk &&& INITIALIZE_MASK < INITIALIZE_MASK) || decide (s.current_lock > 0)

/-- `MMFLock::lock_read for RWLock`.  The guarded `fetch_update` refuses when
the shared read field is saturated or the shadow byte equals `HOLDING_R`;
otherwise it bumps the shadow byte (`fetch_add(1)`, wrapping u8) and the
shared word (`lock + 1`, wrapping u32). -/
def lock_read (s : RWLock) : MMFResult Unit × RWLock :=
  if !(initialized s) then
    (.error .Uninitialized, s)
  else if writelocked s then
    (.error .WriteLocked, s)
  else if s.chunk &&& READ_LOCK_MASK = READ_LOCK_MASK ∨ s.current_lock = HOLDING_R then
    (.error .MaxReaders, s)
  else
    (.ok (), { chunk := (s.chunk + 1) % 2^32, current_lock := (s.current_lock + 1) % 2^8 })

/-- `MMFLock::unlock_read for RWLock`.  The guarded `fetch_update` refuses when
the shared read field is zero or the shadow byte is zero; otherwise it
decrements the shadow byte (`fetch_sub(1)`, wrapping u8) and stores
`lock.max(1) - 1` into the shared word. -/
def unlock_read (s : RWLock) : MMFResult Unit × RWLock :=
  if !(initialized s) then
    (.error .Uninitialized, s)
  else if writelocked s then
    (.error .WriteLocked, s)
  else if s.chunk &&& READ_LOCK_MASK = 0 ∨ s.current_lock = 0 then
    (.error .MaxReaders, s)
  else
    (.ok (), { chunk := max s.chunk 1 - 1, current_lock := (s.current_lock + (2^8 - 1)) % 2^8 })

/-- `MMFLock::lock_write for RWLock`.  After the three checks the
`fetch_update` closure always returns `Some`, or-ing `HOLDING_W` into the
shadow byte and `WRITE_LOCK_MASK` into the shared word. -/
def lock_write (s : RWLock) : MMFResult Unit × RWLock :=
  if !(initialized s) then
    (.error .Uninitialized, s)
  else if writelocked s then
    (.error .WriteLocked, s)
  else if readlocked s then
    (.error .ReadLocked, s)
  else
    (.ok (), { chunk := s.chunk ||| WRITE_LOCK_MASK, current_lock := s.current_lock ||| HOLDING_W })

/-- `MMFLock::unlock_write for RWLock`.  Succeeds as a no-op when not
writelocked; otherwise the `fetch_update` refuses when the shadow byte does not
record `HOLDING_W`, and else xors `HOLDING_W` out of the shadow byte and
`WRITE_LOCK_MASK` into the shared word. -/
def unlock_write (s : RWLock) : MMFResult Unit × RWLock :=
  if !(writelocked s) then
    (.ok (), s)
  else if !(initialized s) then
    (.error .Uninitialized, s)
  else if s.current_lock &&& HOLDING_W = 0 then
    (.error .GeneralFailure, s)
  else
    (.ok (), { chunk := s.chunk ^^^ WRITE_LOCK_MASK, current_lock := s.current_lock ^^^ HOLDING_W })

/-- `usize::MAX` on the 64-bit targets the crate supports. -/
def USIZE_MAX : Nat := 2^64 - 1

/-- `MMFLock::spin for RWLock`: `tries.add_assign(1)` (wrapping usize), then
`Ok(true)` if `locked()`, else `Err(LockViolation)` if the counter equals
`usize::MAX`, else `Ok(false)`. -/
def spin (s : RWLock) (tries : Nat) : MMFResult Bool × Nat :=
  let t := (tries + 1) % 2^64
  if locked s then
    (.ok true, t)
  else if t = USIZE_MAX then
    (.error .LockViolation, t)
  else
    (.ok false, t)

/-- View of the shared reader count, `chunk & READ_LOCK_MASK` (bits 0-23). -/
def sharedReaders (s : RWLock) : Nat := s.chunk &&& READ_LOCK_MASK

/-- View of this instance's shadow read count, `current_lock & HOLDING_R`. -/
def localReaders (s : RWLock) : Nat := s.current_lock &&& HOLDING_R

/-- View of this instance's shadow write bit, `current_lock & HOLDING_W`. -/
def localWriteBit (s : RWLock) : Nat := s.current_lock &&& HOLDING_W

end RWLock

/-- The four state-mutating lock operations, as steps of a transition system. -/
inductive Op where
  | lockRead
  | unlockRead
  | lockWrite
  | unlockWrite
deriving DecidableEq, Repr

/-- Run one operation on one instance's view of the lock. -/
def applyOp (o : Op) (s : RWLock) : MMFResult Unit × RWLock :=
  match o with
  | .lockRead => s.lock_read
  | .unlockRead => s.unlock_read
  | .lockWrite => s.lock_write
  | .unlockWrite => s.unlock_write

/-- Run a sequence of operations on one instance, keeping only the state. -/
def applyOps (ops : List Op) (s : RWLock) : RWLock :=
  ops.foldl (fun s o => (applyOp o s).2) s

/-- An event seen by one instance: one of its own lock operations, or the
shared word being rewritten underneath it by some other instance mapping the
same memory (the shadow byte is private, so the environment cannot touch it). -/
inductive Ev where
  | op (o : Op)
  | env (mem : Nat)

/-- Run one event on one instance's view of the lock. -/
def evStep (s : RWLock) (e : Ev) : RWLock :=
  match e with
  | .op o => (applyOp o s).2
  | .env mem => { chunk := mem % 2^32, current_lock := s.current_lock }

/-- A system of `n` lock instances over one shared word: the word itself plus
each instance's private shadow byte. -/
structure SysState (n : Nat) where
  chunk : Nat
  locals : Fin n → Nat

/-- Instance `i`'s view of the system: the shared word and its own byte. -/
def SysState.view (g : SysState n) (i : Fin n) : RWLock :=
  { chunk := g.chunk, current_lock := g.locals i }

/-- Instance `i` performs operation `o`: its view steps, the new shared word is
published and its private byte is updated. -/
def SysState.step (g : SysState n) (i : Fin n) (o : Op) : MMFResult Unit × SysState n :=
  let res := applyOp o (g.view i)
  (res.1, { chunk := res.2.chunk, locals := Function.update g.locals i res.2.current_lock })

/-- The system state right after some instance ran `set_init` and every
instance's shadow byte is clear: shared word 0, all locals 0. -/
def SysState.init (n : Nat) : SysState n :=
  { chunk := 0, locals := fun _ => 0 }

/-- States reachable from the freshly initialized system by any interleaving
of `lock_read` / `unlock_read` / `lock_write` / `unlock_write` calls from the
`n` instances. -/
inductive Reachable : SysState n → Prop where
  | init : Reachable (SysState.init n)
  | step {g : SysState n} (hg : Reachable g) (i : Fin n) (o : Op) : Reachable (g.step i o).2

/-- Invariant of the multi-instance system: the shared word decomposes into a
top byte `hb` that is 0 or 128 (bit 31 mirroring the write lock) and a read
field `r` that equals the sum of all instances' shadow read counts; every
shadow byte is a pure read count (at most 127) or exactly the write bit 128;
no write bit is set anywhere while the shared flag is clear; and at most one
instance holds the write bit. -/
def SysInv (g : SysState n) : Prop :=
  ∃ hb r, (hb = 0 ∨ hb = 128) ∧ r < 2^24 ∧ g.chunk = 2^24 * hb + r
    ∧ r = ∑ j, g.locals j % 128
    ∧ (∀ j, g.locals j ≤ 127 ∨ g.locals j = 128)
    ∧ (hb = 0 → ∀ j, g.locals j ≤ 127)
    ∧ (∀ j k, g.locals j = 128 → g.locals k = 128 → j = k)

end WinMMF

namespace WinMMF

/-! ### Arithmetic helpers: the bit masks on decomposed words

A u32 word `x < 2^32` is decomposed as `x = 2^24 * h + l` with `h < 2^8` the
initialization byte and `l < 2^24` the read-count field; the mask operations
of the code are computed in these coordinates. -/

lemma INITIALIZE_MASK_eq : RWLock.INITIALIZE_MASK = 2^24 * 255 := by decide

lemma READ_LOCK_MASK_eq : RWLock.READ_LOCK_MASK = 2^24 - 1 := by decide

lemma WRITE_LOCK_MASK_eq : RWLock.WRITE_LOCK_MASK = 2^31 := by decide

lemma HOLDING_W_eq : RWLock.HOLDING_W = 128 := by decide

lemma HOLDING_R_eq : RWLock.HOLDING_R = 127 := by decide

lemma u8_and_127 : ∀ cl : Nat, cl < 256 → cl &&& 127 = cl % 128 := by decide

lemma u8_and_128 : ∀ cl : Nat, cl < 256 → cl &&& 128 = if 128 ≤ cl then 128 else 0 := by decide

lemma u8_or_128 : ∀ cl : Nat, cl < 128 → cl ||| 128 = cl + 128 := by decide

lemma u8_xor_128 : ∀ cl : Nat, cl < 256 →
    cl ^^^ 128 = if 128 ≤ cl then cl - 128 else cl + 128 := by decide

lemma and_read_mask (x : Nat) : x &&& RWLock.READ_LOCK_MASK = x % 2^24 := by
  rw [READ_LOCK_MASK_eq]
  exact Nat.and_pow_two_sub_one_eq_mod x 24

lemma decomp_testBit (h l : Nat) (hl : l < 2^24) (j : Nat) :
    Nat.testBit (2^24 * h + l) j = if j < 24 then Nat.testBit l j else Nat.testBit h (j - 24) :=
  Nat.testBit_mul_pow_two_add h hl j

lemma and_init_mask (h l : Nat) (hh : h < 256) (hl : l < 2^24) :
    (2^24 * h + l) &&& RWLock.INITIALIZE_MASK = 2^24 * h := by
  rw [INITIALIZE_MASK_eq]
  apply Nat.eq_of_testBit_eq
  intro j
  rw [Nat.testBit_and, decomp_testBit h l hl, Nat.testBit_mul_pow_two, Nat.testBit_mul_pow_two]
  by_cases hj : j < 24
  · simp [hj, Nat.not_le_of_lt hj]
  · have h24 : 24 ≤ j := Nat.le_of_not_lt hj
    rw [show (255 : Nat) = 2^8 - 1 from by norm_num, Nat.testBit_two_pow_sub_one]
    by_cases hj8 : j - 24 < 8
    · simp [hj, h24, hj8]
    · have hpow : (2:Nat)^8 ≤ 2^(j - 24) := Nat.pow_le_pow_right (by norm_num) (Nat.le_of_not_lt hj8)
      have hfalse : Nat.testBit h (j - 24) = false := Nat.testBit_lt_two_pow (by omega)
      simp [hj, h24, hj8, hfalse]

lemma and_write_mask (h l : Nat) (hl : l < 2^24) :
    (2^24 * h + l) &&& RWLock.WRITE_LOCK_MASK = 2^24 * (h &&& 128) := by
  rw [WRITE_LOCK_MASK_eq, Nat.and_two_pow, decomp_testBit h l hl 31,
    show (128 : Nat) = 2^7 from by norm_num, Nat.and_two_pow]
  norm_num
  cases h.testBit 7 <;> norm_num

lemma or_write_mask (h l : Nat) (hl : l < 2^24) :
    (2^24 * h + l) ||| RWLock.WRITE_LOCK_MASK = 2^24 * (h ||| 128) + l := by
  rw [WRITE_LOCK_MASK_eq]
  apply Nat.eq_of_testBit_eq
  intro j
  rw [Nat.testBit_or, decomp_testBit h l hl, decomp_testBit (h ||| 128) l hl, Nat.testBit_or,
    Nat.testBit_two_pow, show (128 : Nat) = 2^7 from by norm_num, Nat.testBit_two_pow]
  by_cases hj : j < 24
  · have h31 : ¬(31 = j) := by omega
    simp [hj, h31]
  · by_cases hj31 : j = 31
    · subst hj31
      simp [hj]
    · have h31 : ¬(31 = j) := by omega
      have h7 : ¬(7 = j - 24) := by omega
      simp [hj, h31, h7]

lemma xor_write_mask (h l : Nat) (hl : l < 2^24) :
    (2^24 * h + l) ^^^ RWLock.WRITE_LOCK_MASK = 2^24 * (h ^^^ 128) + l := by
  rw [WRITE_LOCK_MASK_eq]
  apply Nat.eq_of_testBit_eq
  intro j
  rw [Nat.testBit_xor, decomp_testBit h l hl, decomp_testBit (h ^^^ 128) l hl, Nat.testBit_xor,
    Nat.testBit_two_pow, show (128 : Nat) = 2^7 from by norm_num, Nat.testBit_two_pow]
  by_cases hj : j < 24
  · have h31 : ¬(31 = j) := by omega
    simp [hj, h31]
  · by_cases hj31 : j = 31
    · subst hj31
      simp [hj]
    · have h31 : ¬(31 = j) := by omega
      have h7 : ¬(7 = j - 24) := by omega
      simp [hj, h31, h7]

/-! ### The predicates in decomposed coordinates -/

lemma initialized_decomp (h l cl : Nat) (hh : h < 256) (hl : l < 2^24) :
    RWLock.initialized ⟨2^24 * h + l, cl⟩ = (decide (h < 255) || decide (cl < 255)) := by
  show (decide ((2^24 * h + l) &&& RWLock.INITIALIZE_MASK < RWLock.INITIALIZE_MASK)
      || decide (cl < 255)) = (decide (h < 255) || decide (cl < 255))
  rw [and_init_mask h l hh hl]
  have hiff : 2^24 * h < RWLock.INITIALIZE_MASK ↔ h < 255 := by
    rw [INITIALIZE_MASK_eq]
    omega
  rw [decide_eq_decide.mpr hiff]

lemma readlocked_decomp (h l cl : Nat) (hl : l < 2^24) (hcl : cl < 256) :
    RWLock.readlocked ⟨2^24 * h + l, cl⟩ = (decide (0 < l) || decide (0 < cl % 128)) := by
  show (decide (0 < (2^24 * h + l) &&& RWLock.READ_LOCK_MASK)
      || decide (0 < cl &&& RWLock.HOLDING_R)) = (decide (0 < l) || decide (0 < cl % 128))
  rw [and_read_mask, HOLDING_R_eq, u8_and_127 cl hcl]
  have hiff : 0 < (2^24 * h + l) % 2^24 ↔ 0 < l := by
    rw [Nat.mul_add_mod]
    omega
  rw [decide_eq_decide.mpr hiff]

lemma writelocked_decomp (h l cl : Nat) (hh : h < 256) (hl : l < 2^24) (hcl : cl < 256) :
    RWLock.writelocked ⟨2^24 * h + l, cl⟩ = (decide (128 ≤ h) || decide (128 ≤ cl)) := by
  show (decide ((2^24 * h + l) &&& RWLock.WRITE_LOCK_MASK = RWLock.WRITE_LOCK_MASK)
      || decide (cl &&& RWLock.HOLDING_W = RWLock.HOLDING_W))
      = (decide (128 ≤ h) || decide (128 ≤ cl))
  rw [and_write_mask h l hl, HOLDING_W_eq, u8_and_128 cl hcl, u8_and_128 h hh]
  have hiff1 : 2^24 * (if 128 ≤ h then 128 else 0) = RWLock.WRITE_LOCK_MASK ↔ 128 ≤ h := by
    rw [WRITE_LOCK_MASK_eq]
    by_cases hc : 128 ≤ h <;> simp [hc]
  have hiff2 : (if 128 ≤ cl then 128 else 0) = 128 ↔ 128 ≤ cl := by
    by_cases hc : 128 ≤ cl <;> simp [hc]
  rw [decide_eq_decide.mpr hiff1, decide_eq_decide.mpr hiff2]

lemma locked_decomp (h l cl : Nat) (hh : h < 256) (hl : l < 2^24) :
    RWLock.locked ⟨2^24 * h + l, cl⟩ = (decide (h < 255) || decide (0 < cl)) := by
  show (decide ((2^24 * h + l) &&& RWLock.INITIALIZE_MASK < RWLock.INITIALIZE_MASK)
      || decide (0 < cl)) = (decide (h < 255) || decide (0 < cl))
  rw [and_init_mask h l hh hl]
  have hiff : 2^24 * h < RWLock.INITIALIZE_MASK ↔ h < 255 := by
    rw [INITIALIZE_MASK_eq]
    omega
  rw [decide_eq_decide.mpr hiff]

/-! ### The operations in decomposed coordinates -/

lemma lock_read_decomp (h l cl : Nat) (hh : h < 256) (hl : l < 2^24) (hcl : cl < 256) :
    RWLock.lock_read ⟨2^24 * h + l, cl⟩ =
      if h = 255 ∧ cl = 255 then (.error .Uninitialized, ⟨2^24 * h + l, cl⟩)
      else if 128 ≤ h ∨ 128 ≤ cl then (.error .WriteLocked, ⟨2^24 * h + l, cl⟩)
      else if l = 2^24 - 1 ∨ cl = 127 then (.error .MaxReaders, ⟨2^24 * h + l, cl⟩)
      else (.ok (), ⟨2^24 * h + (l + 1), cl + 1⟩) := by
  unfold RWLock.lock_read
  rw [initialized_decomp h l cl hh hl, writelocked_decomp h l cl hh hl hcl]
  have hread : (⟨2^24 * h + l, cl⟩ : RWLock).chunk &&& RWLock.READ_LOCK_MASK = l := by
    show (2^24 * h + l) &&& RWLock.READ_LOCK_MASK = l
    rw [and_read_mask, Nat.mul_add_mod, Nat.mod_eq_of_lt hl]
  rw [hread, READ_LOCK_MASK_eq, HOLDING_R_eq]
  clear hread
  by_cases hA : h = 255 ∧ cl = 255
  · obtain ⟨e1, e2⟩ := hA
    subst e1
    subst e2
    norm_num
  · have h1 : (decide (h < 255) || decide (cl < 255)) = true := by
      simp only [Bool.or_eq_true, decide_eq_true_eq]
      omega
    rw [h1]
    by_cases hB : 128 ≤ h ∨ 128 ≤ cl
    · have h2 : (decide (128 ≤ h) || decide (128 ≤ cl)) = true := by
        simp only [Bool.or_eq_true, decide_eq_true_eq]
        omega
      rw [h2]
      simp [hA, hB]
    · have h2 : (decide (128 ≤ h) || decide (128 ≤ cl)) = false := by
        simp only [Bool.or_eq_false_iff, decide_eq_false_iff_not]
        omega
      rw [h2]
      by_cases hC : l = 2^24 - 1 ∨ cl = 127
      · simp only [if_pos hC]
        simp [hA, hB]
      · simp only [if_neg hC]
        simp [hA, hB, Prod.mk.injEq, RWLock.mk.injEq]
        omega

lemma unlock_read_decomp (h l cl : Nat) (hh : h < 256) (hl : l < 2^24) (hcl : cl < 256) :
    RWLock.unlock_read ⟨2^24 * h + l, cl⟩ =
      if h = 255 ∧ cl = 255 then (.error .Uninitialized, ⟨2^24 * h + l, cl⟩)
      else if 128 ≤ h ∨ 128 ≤ cl then (.error .WriteLocked, ⟨2^24 * h + l, cl⟩)
      else if l = 0 ∨ cl = 0 then (.error .MaxReaders, ⟨2^24 * h + l, cl⟩)
      else (.ok (), ⟨2^24 * h + (l - 1), cl - 1⟩) := by
  unfold RWLock.unlock_read
  rw [initialized_decomp h l cl hh hl, writelocked_decomp h l cl hh hl hcl]
  have hread : (⟨2^24 * h + l, cl⟩ : RWLock).chunk &&& RWLock.READ_LOCK_MASK = l := by
    show (2^24 * h + l) &&& RWLock.READ_LOCK_MASK = l
    rw [and_read_mask, Nat.mul_add_mod, Nat.mod_eq_of_lt hl]
  rw [hread]
  clear hread
  by_cases hA : h = 255 ∧ cl = 255
  · obtain ⟨e1, e2⟩ := hA
    subst e1
    subst e2
    norm_num
  · have h1 : (decide (h < 255) || decide (cl < 255)) = true := by
      simp only [Bool.or_eq_true, decide_eq_true_eq]
      omega
    rw [h1]
    by_cases hB : 128 ≤ h ∨ 128 ≤ cl
    · have h2 : (decide (128 ≤ h) || decide (128 ≤ cl)) = true := by
        simp only [Bool.or_eq_true, decide_eq_true_eq]
        omega
      rw [h2]
      simp [hA, hB]
    · have h2 : (decide (128 ≤ h) || decide (128 ≤ cl)) = false := by
        simp only [Bool.or_eq_false_iff, decide_eq_false_iff_not]
        omega
      rw [h2]
      by_cases hC : l = 0 ∨ cl = 0
      · simp only [if_pos hC]
        simp [hA, hB]
      · simp only [if_neg hC]
        simp [hA, hB, Prod.mk.injEq, RWLock.mk.injEq]
        omega

lemma lock_write_decomp (h l cl : Nat) (hh : h < 256) (hl : l < 2^24) (hcl : cl < 256) :
    RWLock.lock_write ⟨2^24 * h + l, cl⟩ =
      if h = 255 ∧ cl = 255 then (.error .Uninitialized, ⟨2^24 * h + l, cl⟩)
      else if 128 ≤ h ∨ 128 ≤ cl then (.error .WriteLocked, ⟨2^24 * h + l, cl⟩)
      else if 0 < l ∨ 0 < cl % 128 then (.error .ReadLocked, ⟨2^24 * h + l, cl⟩)
      else (.ok (), ⟨2^24 * (h + 128) + l, cl + 128⟩) := by
  unfold RWLock.lock_write
  rw [initialized_decomp h l cl hh hl, writelocked_decomp h l cl hh hl hcl,
    readlocked_decomp h l cl hl hcl]
  by_cases hA : h = 255 ∧ cl = 255
  · obtain ⟨e1, e2⟩ := hA
    subst e1
    subst e2
    norm_num
  · have h1 : (decide (h < 255) || decide (cl < 255)) = true := by
      simp only [Bool.or_eq_true, decide_eq_true_eq]
      omega
    rw [h1]
    by_cases hB : 128 ≤ h ∨ 128 ≤ cl
    · have h2 : (decide (128 ≤ h) || decide (128 ≤ cl)) = true := by
        simp only [Bool.or_eq_true, decide_eq_true_eq]
        omega
      rw [h2]
      simp [hA, hB]
    · have h2 : (decide (128 ≤ h) || decide (128 ≤ cl)) = false := by
        simp only [Bool.or_eq_false_iff, decide_eq_false_iff_not]
        omega
      rw [h2]
      by_cases hC : 0 < l ∨ 0 < cl % 128
      · have h3 : (decide (0 < l) || decide (0 < cl % 128)) = true := by
          simp only [Bool.or_eq_true, decide_eq_true_eq]
          omega
        rw [h3]
        simp [hA, hB, hC]
      · have h3 : (decide (0 < l) || decide (0 < cl % 128)) = false := by
          simp only [Bool.or_eq_false_iff, decide_eq_false_iff_not]
          omega
        rw [h3]
        have hh128 : h < 128 := by omega
        have hcl128 : cl < 128 := by omega
        have hor2 : cl ||| RWLock.HOLDING_W = cl + 128 := by
          rw [HOLDING_W_eq, u8_or_128 cl hcl128]
        simp [hA, hB, hC, hor2, Prod.mk.injEq, RWLock.mk.injEq]
        have e1 := or_write_mask h l hl
        rw [u8_or_128 h hh128] at e1
        simp at e1
        simpa using e1

lemma unlock_write_decomp (h l cl : Nat) (hh : h < 256) (hl : l < 2^24) (hcl : cl < 256) :
    RWLock.unlock_write ⟨2^24 * h + l, cl⟩ =
      if h < 128 ∧ cl < 128 then (.ok (), ⟨2^24 * h + l, cl⟩)
      else if h = 255 ∧ cl = 255 then (.error .Uninitialized, ⟨2^24 * h + l, cl⟩)
      else if cl < 128 then (.error .GeneralFailure, ⟨2^24 * h + l, cl⟩)
      else (.ok (), ⟨2^24 * (if 128 ≤ h then h - 128 else h + 128) + l, cl - 128⟩) := by
  unfold RWLock.unlock_write
  rw [initialized_decomp h l cl hh hl, writelocked_decomp h l cl hh hl hcl]
  have hw : (⟨2^24 * h + l, cl⟩ : RWLock).current_lock &&& RWLock.HOLDING_W
      = if 128 ≤ cl then 128 else 0 := by
    show cl &&& RWLock.HOLDING_W = if 128 ≤ cl then 128 else 0
    rw [HOLDING_W_eq, u8_and_128 cl hcl]
  rw [hw]
  clear hw
  by_cases hA : h < 128 ∧ cl < 128
  · have h1 : (decide (128 ≤ h) || decide (128 ≤ cl)) = false := by
      simp only [Bool.or_eq_false_iff, decide_eq_false_iff_not]
      omega
    rw [h1]
    simp [hA]
  · have h1 : (decide (128 ≤ h) || decide (128 ≤ cl)) = true := by
      simp only [Bool.or_eq_true, decide_eq_true_eq]
      omega
    rw [h1]
    by_cases hB : h = 255 ∧ cl = 255
    · obtain ⟨e1, e2⟩ := hB
      subst e1
      subst e2
      norm_num
    · have h2 : (decide (h < 255) || decide (cl < 255)) = true := by
        simp only [Bool.or_eq_true, decide_eq_true_eq]
        omega
      rw [h2]
      by_cases hC : cl < 128
      · have h3 : (if 128 ≤ cl then (128 : Nat) else 0) = 0 := by
          rw [if_neg (by omega)]
        rw [h3]
        have hge : ¬(h < 128) := by omega
        simp [hA, hB, hC, hge]
      · have h3 : ¬((if 128 ≤ cl then (128 : Nat) else 0) = 0) := by
          rw [if_pos (by omega)]
          omega
        have hxor2 : cl ^^^ RWLock.HOLDING_W = cl - 128 := by
          rw [HOLDING_W_eq, u8_xor_128 cl hcl, if_pos (by omega : 128 ≤ cl)]
        simp [hA, hB, hC, h3, hxor2, Prod.mk.injEq, RWLock.mk.injEq]
        have e1 := xor_write_mask h l hl
        rw [u8_xor_128 h hh] at e1
        simp at e1
        simpa using e1


lemma sharedReaders_decomp (h l cl : Nat) (hl : l < 2^24) :
    RWLock.sharedReaders ⟨2^24 * h + l, cl⟩ = l := by
  show (2^24 * h + l) &&& RWLock.READ_LOCK_MASK = l
  rw [and_read_mask, Nat.mul_add_mod, Nat.mod_eq_of_lt hl]

lemma localReaders_decomp (h l cl : Nat) (hcl : cl < 256) :
    RWLock.localReaders ⟨2^24 * h + l, cl⟩ = cl % 128 := by
  show cl &&& RWLock.HOLDING_R = cl % 128
  rw [HOLDING_R_eq, u8_and_127 cl hcl]

lemma localWriteBit_decomp (h l cl : Nat) (hcl : cl < 256) :
    RWLock.localWriteBit ⟨2^24 * h + l, cl⟩ = if 128 ≤ cl then 128 else 0 := by
  show cl &&& RWLock.HOLDING_W = _
  rw [HOLDING_W_eq, u8_and_128 cl hcl]

/-- C2: `lock_read` returns `Err(Uninitialized)` when the lock is not
initialized; `Err(WriteLocked)` when a writer holds the lock;
`Err(MaxReaders)` when the shared reader count equals its maximum 16777215 or
this instance's local shadow read count is at its maximum 127; in every other
case it returns `Ok`, having incremented the shared reader count and the local
shadow read count by exactly one each. -/
theorem C2_lock_read_spec (s : RWLock) (h32 : s.chunk < 2^32) (h8 : s.current_lock < 256) :
    (RWLock.initialized s = false → RWLock.lock_read s = (.error .Uninitialized, s))
    ∧ (RWLock.initialized s = true → RWLock.writelocked s = true →
        RWLock.lock_read s = (.error .WriteLocked, s))
    ∧ (RWLock.initialized s = true → RWLock.writelocked s = false →
        (RWLock.sharedReaders s = 16777215 ∨ RWLock.localReaders s = 127) →
        RWLock.lock_read s = (.error .MaxReaders, s))
    ∧ (RWLock.initialized s = true → RWLock.writelocked s = false →
        RWLock.sharedReaders s ≠ 16777215 → RWLock.localReaders s ≠ 127 →
        (RWLock.lock_read s).1 = .ok ()
        ∧ RWLock.sharedReaders (RWLock.lock_read s).2 = RWLock.sharedReaders s + 1
        ∧ RWLock.localReaders (RWLock.lock_read s).2 = RWLock.localReaders s + 1) := by
  obtain ⟨c, cl⟩ := s
  dsimp only at h32 h8
  have hc : c = 2^24 * (c / 2^24) + c % 2^24 := by omega
  set h := c / 2^24 with hdef1
  set l := c % 2^24 with hdef2
  have hh : h < 256 := by omega
  have hl : l < 2^24 := by omega
  rw [hc]
  rw [initialized_decomp h l cl hh hl, writelocked_decomp h l cl hh hl h8,
    sharedReaders_decomp h l cl hl, localReaders_decomp h l cl h8,
    lock_read_decomp h l cl hh hl h8]
  refine ⟨?_, ?_, ?_, ?_⟩
  · intro hinit
    simp only [Bool.or_eq_false_iff, decide_eq_false_iff_not, not_lt] at hinit
    have hA : h = 255 ∧ cl = 255 := by omega
    rw [if_pos hA]
  · intro hinit hwl
    simp only [Bool.or_eq_true, decide_eq_true_eq] at hinit hwl
    have hA : ¬(h = 255 ∧ cl = 255) := by omega
    rw [if_neg hA, if_pos hwl]
  · intro hinit hwl hmax
    simp only [Bool.or_eq_true, decide_eq_true_eq] at hinit
    simp only [Bool.or_eq_false_iff, decide_eq_false_iff_not, not_le] at hwl
    have hA : ¬(h = 255 ∧ cl = 255) := by omega
    have hB : ¬(128 ≤ h ∨ 128 ≤ cl) := by omega
    have hC : l = 2^24 - 1 ∨ cl = 127 := by omega
    rw [if_neg hA, if_neg hB, if_pos hC]
  · intro hinit hwl hs hr
    simp only [Bool.or_eq_true, decide_eq_true_eq] at hinit
    simp only [Bool.or_eq_false_iff, decide_eq_false_iff_not, not_le] at hwl
    have hA : ¬(h = 255 ∧ cl = 255) := by omega
    have hB : ¬(128 ≤ h ∨ 128 ≤ cl) := by omega
    have hC : ¬(l = 2^24 - 1 ∨ cl = 127) := by omega
    rw [if_neg hA, if_neg hB, if_neg hC]
    dsimp only
    refine ⟨rfl, ?_, ?_⟩
    · rw [sharedReaders_decomp h (l + 1) (cl + 1) (by omega)]
    · rw [localReaders_decomp h (l + 1) (cl + 1) (by omega)]
      omega

/-- C3: `unlock_read` returns `Err(Uninitialized)` when not initialized and
`Err(WriteLocked)` when the write lock is held; it returns `Err(MaxReaders)`
with both counters unchanged when the shared reader count or the local shadow
read count is zero; otherwise it returns `Ok`, decrementing the shared reader
count and the local shadow read count by exactly one each (never going below
zero). -/
theorem C3_unlock_read_spec (s : RWLock) (h32 : s.chunk < 2^32) (h8 : s.current_lock < 256) :
    (RWLock.initialized s = false → RWLock.unlock_read s = (.error .Uninitialized, s))
    ∧ (RWLock.initialized s = true → RWLock.writelocked s = true →
        RWLock.unlock_read s = (.error .WriteLocked, s))
    ∧ (RWLock.initialized s = true → RWLock.writelocked s = false →
        (RWLock.sharedReaders s = 0 ∨ RWLock.localReaders s = 0) →
        RWLock.unlock_read s = (.error .MaxReaders, s))
    ∧ (RWLock.initialized s = true → RWLock.writelocked s = false →
        RWLock.sharedReaders s ≠ 0 → RWLock.localReaders s ≠ 0 →
        (RWLock.unlock_read s).1 = .ok ()
        ∧ RWLock.sharedReaders (RWLock.unlock_read s).2 + 1 = RWLock.sharedReaders s
        ∧ RWLock.localReaders (RWLock.unlock_read s).2 + 1 = RWLock.localReaders s) := by
  obtain ⟨c, cl⟩ := s
  dsimp only at h32 h8
  have hc : c = 2^24 * (c / 2^24) + c % 2^24 := by omega
  set h := c / 2^24 with hdef1
  set l := c % 2^24 with hdef2
  have hh : h < 256 := by omega
  have hl : l < 2^24 := by omega
  rw [hc]
  rw [initialized_decomp h l cl hh hl, writelocked_decomp h l cl hh hl h8,
    sharedReaders_decomp h l cl hl, localReaders_decomp h l cl h8,
    unlock_read_decomp h l cl hh hl h8]
  refine ⟨?_, ?_, ?_, ?_⟩
  · intro hinit
    simp only [Bool.or_eq_false_iff, decide_eq_false_iff_not, not_lt] at hinit
    have hA : h = 255 ∧ cl = 255 := by omega
    rw [if_pos hA]
  · intro hinit hwl
    simp only [Bool.or_eq_true, decide_eq_true_eq] at hinit hwl
    have hA : ¬(h = 255 ∧ cl = 255) := by omega
    rw [if_neg hA, if_pos hwl]
  · intro hinit hwl hz
    simp only [Bool.or_eq_true, decide_eq_true_eq] at hinit
    simp only [Bool.or_eq_false_iff, decide_eq_false_iff_not, not_le] at hwl
    have hA : ¬(h = 255 ∧ cl = 255) := by omega
    have hB : ¬(128 ≤ h ∨ 128 ≤ cl) := by omega
    have hC : l = 0 ∨ cl = 0 := by omega
    rw [if_neg hA, if_neg hB, if_pos hC]
  · intro hinit hwl hs hr
    simp only [Bool.or_eq_true, decide_eq_true_eq] at hinit
    simp only [Bool.or_eq_false_iff, decide_eq_false_iff_not, not_le] at hwl
    have hA : ¬(h = 255 ∧ cl = 255) := by omega
    have hB : ¬(128 ≤ h ∨ 128 ≤ cl) := by omega
    have hC : ¬(l = 0 ∨ cl = 0) := by omega
    rw [if_neg hA, if_neg hB, if_neg hC]
    dsimp only
    refine ⟨rfl, ?_, ?_⟩
    · rw [sharedReaders_decomp h (l - 1) (cl - 1) (by omega)]
      omega
    · rw [localReaders_decomp h (l - 1) (cl - 1) (by omega)]
      omega

/-- C4 amended: `unlock_write` on a lock that is not write-locked at all
returns `Ok` and leaves the state unchanged; when write-locked it returns
`Err(Uninitialized)` if not initialized, `Err(GeneralFailure)` if this
instance's local shadow write bit is not set, and otherwise `Ok` after
clearing the local shadow write bit and xor-toggling the shared write-lock
flag, which clears the flag exactly when it was set (the reader count is
untouched). -/
theorem C4_unlock_write_spec (s : RWLock) (h32 : s.chunk < 2^32) (h8 : s.current_lock < 256) :
    (RWLock.writelocked s = false → RWLock.unlock_write s = (.ok (), s))
    ∧ (RWLock.writelocked s = true → RWLock.initialized s = false →
        RWLock.unlock_write s = (.error .Uninitialized, s))
    ∧ (RWLock.writelocked s = true → RWLock.initialized s = true →
        RWLock.localWriteBit s = 0 →
        RWLock.unlock_write s = (.error .GeneralFailure, s))
    ∧ (RWLock.writelocked s = true → RWLock.initialized s = true →
        RWLock.localWriteBit s = RWLock.HOLDING_W →
        (RWLock.unlock_write s).1 = .ok ()
        ∧ RWLock.localWriteBit (RWLock.unlock_write s).2 = 0
        ∧ (RWLock.unlock_write s).2.chunk = s.chunk ^^^ RWLock.WRITE_LOCK_MASK
        ∧ RWLock.sharedReaders (RWLock.unlock_write s).2 = RWLock.sharedReaders s
        ∧ (s.chunk &&& RWLock.WRITE_LOCK_MASK = RWLock.WRITE_LOCK_MASK →
            (RWLock.unlock_write s).2.chunk &&& RWLock.WRITE_LOCK_MASK = 0)) := by
  obtain ⟨c, cl⟩ := s
  dsimp only at h32 h8
  have hc : c = 2^24 * (c / 2^24) + c % 2^24 := by omega
  set h := c / 2^24 with hdef1
  set l := c % 2^24 with hdef2
  have hh : h < 256 := by omega
  have hl : l < 2^24 := by omega
  rw [hc, HOLDING_W_eq]
  rw [initialized_decomp h l cl hh hl, writelocked_decomp h l cl hh hl h8,
    sharedReaders_decomp h l cl hl, localWriteBit_decomp h l cl h8,
    unlock_write_decomp h l cl hh hl h8]
  refine ⟨?_, ?_, ?_, ?_⟩
  · intro hwl
    simp only [Bool.or_eq_false_iff, decide_eq_false_iff_not, not_le] at hwl
    have hA : h < 128 ∧ cl < 128 := by omega
    rw [if_pos hA]
  · intro hwl hinit
    simp only [Bool.or_eq_false_iff, decide_eq_false_iff_not, not_lt] at hinit
    have hA : ¬(h < 128 ∧ cl < 128) := by omega
    have hB : h = 255 ∧ cl = 255 := by omega
    rw [if_neg hA, if_pos hB]
  · intro hwl hinit hlw
    simp only [Bool.or_eq_true, decide_eq_true_eq] at hwl hinit
    have hcl : cl < 128 := by
      by_cases hx : 128 ≤ cl
      · rw [if_pos hx] at hlw
        omega
      · omega
    have hA : ¬(h < 128 ∧ cl < 128) := by omega
    have hB : ¬(h = 255 ∧ cl = 255) := by omega
    rw [if_neg hA, if_neg hB, if_pos hcl]
  · intro hwl hinit hlw
    simp only [Bool.or_eq_true, decide_eq_true_eq] at hwl hinit
    have hcl : 128 ≤ cl := by
      by_cases hx : 128 ≤ cl
      · exact hx
      · rw [if_neg hx] at hlw
        omega
    have hA : ¬(h < 128 ∧ cl < 128) := by omega
    have hB : ¬(h = 255 ∧ cl = 255) := by omega
    have hC : ¬(cl < 128) := by omega
    rw [if_neg hA, if_neg hB, if_neg hC]
    dsimp only
    have hxchunk : (2^24 * h + l) ^^^ RWLock.WRITE_LOCK_MASK
        = 2^24 * (if 128 ≤ h then h - 128 else h + 128) + l := by
      rw [xor_write_mask h l hl, u8_xor_128 h hh]
    refine ⟨rfl, ?_, ?_, ?_, ?_⟩
    · rw [localWriteBit_decomp _ _ _ (by omega : cl - 128 < 256), if_neg (by omega : ¬(128 ≤ cl - 128))]
    · rw [hxchunk]
    · rw [sharedReaders_decomp _ _ _ hl]
    · intro hwflag
      rw [and_write_mask h l hl, u8_and_128 h hh, WRITE_LOCK_MASK_eq] at hwflag
      have hhge : 128 ≤ h := by
        by_cases hx : 128 ≤ h
        · exact hx
        · rw [if_neg hx] at hwflag
          omega
      rw [if_pos hhge, and_write_mask (h - 128) l hl, u8_and_128 (h - 128) (by omega),
        if_neg (by omega : ¬(128 ≤ h - 128))]
      omega


theorem C2_lock_read_spec_witness :
    RWLock.lock_read ⟨RWLock.INITIALIZE_MASK, 255⟩
      = (.error .Uninitialized, ⟨RWLock.INITIALIZE_MASK, 255⟩)
    ∧ RWLock.lock_read ⟨2^31, 0⟩ = (.error .WriteLocked, ⟨2^31, 0⟩)
    ∧ RWLock.lock_read ⟨0, 127⟩ = (.error .MaxReaders, ⟨0, 127⟩)
    ∧ ((RWLock.lock_read ⟨5, 2⟩).1 = .ok ()
        ∧ RWLock.sharedReaders (RWLock.lock_read ⟨5, 2⟩).2 = RWLock.sharedReaders ⟨5, 2⟩ + 1
        ∧ RWLock.localReaders (RWLock.lock_read ⟨5, 2⟩).2 = RWLock.localReaders ⟨5, 2⟩ + 1) :=
  ⟨(C2_lock_read_spec ⟨RWLock.INITIALIZE_MASK, 255⟩ (by decide) (by decide)).1 (by decide),
   (C2_lock_read_spec ⟨2^31, 0⟩ (by decide) (by decide)).2.1 (by decide) (by decide),
   (C2_lock_read_spec ⟨0, 127⟩ (by decide) (by decide)).2.2.1 (by decide) (by decide) (by decide),
   (C2_lock_read_spec ⟨5, 2⟩ (by decide) (by decide)).2.2.2 (by decide) (by decide) (by decide)
     (by decide)⟩

theorem C3_unlock_read_spec_witness :
    RWLock.unlock_read ⟨RWLock.INITIALIZE_MASK, 255⟩
      = (.error .Uninitialized, ⟨RWLock.INITIALIZE_MASK, 255⟩)
    ∧ RWLock.unlock_read ⟨2^31, 0⟩ = (.error .WriteLocked, ⟨2^31, 0⟩)
    ∧ RWLock.unlock_read ⟨0, 0⟩ = (.error .MaxReaders, ⟨0, 0⟩)
    ∧ ((RWLock.unlock_read ⟨3, 2⟩).1 = .ok ()
        ∧ RWLock.sharedReaders (RWLock.unlock_read ⟨3, 2⟩).2 + 1 = RWLock.sharedReaders ⟨3, 2⟩
        ∧ RWLock.localReaders (RWLock.unlock_read ⟨3, 2⟩).2 + 1 = RWLock.localReaders ⟨3, 2⟩) :=
  ⟨(C3_unlock_read_spec ⟨RWLock.INITIALIZE_MASK, 255⟩ (by decide) (by decide)).1 (by decide),
   (C3_unlock_read_spec ⟨2^31, 0⟩ (by decide) (by decide)).2.1 (by decide) (by decide),
   (C3_unlock_read_spec ⟨0, 0⟩ (by decide) (by decide)).2.2.1 (by decide) (by decide) (by decide),
   (C3_unlock_read_spec ⟨3, 2⟩ (by decide) (by decide)).2.2.2 (by decide) (by decide) (by decide)
     (by decide)⟩

theorem C4_unlock_write_spec_witness :
    RWLock.unlock_write ⟨0, 0⟩ = (.ok (), ⟨0, 0⟩)
    ∧ RWLock.unlock_write ⟨RWLock.INITIALIZE_MASK, 255⟩
        = (.error .Uninitialized, ⟨RWLock.INITIALIZE_MASK, 255⟩)
    ∧ RWLock.unlock_write ⟨2^31, 0⟩ = (.error .GeneralFailure, ⟨2^31, 0⟩)
    ∧ ((RWLock.unlock_write ⟨2^31, 128⟩).1 = .ok ()
        ∧ RWLock.localWriteBit (RWLock.unlock_write ⟨2^31, 128⟩).2 = 0
        ∧ (RWLock.unlock_write ⟨2^31, 128⟩).2.chunk
            = (⟨2^31, 128⟩ : RWLock).chunk ^^^ RWLock.WRITE_LOCK_MASK
        ∧ RWLock.sharedReaders (RWLock.unlock_write ⟨2^31, 128⟩).2
            = RWLock.sharedReaders ⟨2^31, 128⟩
        ∧ ((⟨2^31, 128⟩ : RWLock).chunk &&& RWLock.WRITE_LOCK_MASK = RWLock.WRITE_LOCK_MASK →
            (RWLock.unlock_write ⟨2^31, 128⟩).2.chunk &&& RWLock.WRITE_LOCK_MASK = 0)) :=
  ⟨(C4_unlock_write_spec ⟨0, 0⟩ (by decide) (by decide)).1 (by decide),
   (C4_unlock_write_spec ⟨RWLock.INITIALIZE_MASK, 255⟩ (by decide) (by decide)).2.1 (by decide)
     (by decide),
   (C4_unlock_write_spec ⟨2^31, 0⟩ (by decide) (by decide)).2.2.1 (by decide) (by decide)
     (by decide),
   (C4_unlock_write_spec ⟨2^31, 128⟩ (by decide) (by decide)).2.2.2 (by decide) (by decide)
     (by decide)⟩

/-- C4 counterexample: on the state whose shared write flag is clear but whose
local shadow byte records `HOLDING_W` (shared word 0, shadow byte 128), the
lock is write-locked, initialized, and the local shadow write bit is set, so
the claim asserts `unlock_write` returns `Ok` after clearing the shared
write-lock flag; the code does return `Ok` but the xor SETS the shared
write-lock flag instead of clearing it. -/
theorem C4_counterexample :
    RWLock.writelocked ⟨0, 128⟩ = true
    ∧ RWLock.initialized ⟨0, 128⟩ = true
    ∧ RWLock.localWriteBit ⟨0, 128⟩ = RWLock.HOLDING_W
    ∧ (RWLock.unlock_write ⟨0, 128⟩).1 = .ok ()
    ∧ (RWLock.unlock_write ⟨0, 128⟩).2.chunk &&& RWLock.WRITE_LOCK_MASK
        = RWLock.WRITE_LOCK_MASK := by
  decide

/-- C5: after `set_init` the code's `locked()` returns `true` even though no
lock of any kind is held (`readlocked` and `writelocked` are both false and the
word is initialized), and on the uninitialized sentinel written by `from_raw`
it returns `false`; both directions contradict the claimed equivalence
"locked iff uninitialized or local shadow nonzero" (the code compares the
initialization byte with `<`, which is the initialized-test, where its own
documentation describes a check for held locks). -/
theorem C5_locked_code_bug :
    RWLock.locked (RWLock.set_init (RWLock.from_existing 0)) = true
    ∧ RWLock.initialized (RWLock.set_init (RWLock.from_existing 0)) = true
    ∧ RWLock.readlocked (RWLock.set_init (RWLock.from_existing 0)) = false
    ∧ RWLock.writelocked (RWLock.set_init (RWLock.from_existing 0)) = false
    ∧ (RWLock.set_init (RWLock.from_existing 0)).current_lock = 0
    ∧ RWLock.locked (RWLock.from_raw 0) = false
    ∧ RWLock.initialized (RWLock.from_raw 0) = true := by
  decide

/-- C6: over one freshly initialized shared word, instance A (index 0) and
instance B (index 1) observe: A.lock_write → Ok, B.lock_read → WriteLocked,
A.unlock_write → Ok, B.lock_read → Ok, A.lock_write → ReadLocked. -/
theorem C6_concrete_scenario :
    (((SysState.init 2).step 0 .lockWrite).1 = .ok ())
    ∧ ((((SysState.init 2).step 0 .lockWrite).2.step 1 .lockRead).1 = .error .WriteLocked)
    ∧ (((((SysState.init 2).step 0 .lockWrite).2.step 1 .lockRead).2.step 0 .unlockWrite).1
        = .ok ())
    ∧ ((((((SysState.init 2).step 0 .lockWrite).2.step 1 .lockRead).2.step 0
          .unlockWrite).2.step 1 .lockRead).1 = .ok ())
    ∧ (((((((SysState.init 2).step 0 .lockWrite).2.step 1 .lockRead).2.step 0
          .unlockWrite).2.step 1 .lockRead).2.step 0 .lockWrite).1 = .error .ReadLocked) := by
  decide

/-- C7 counterexample: a lock constructed over zeroed memory reads as
initialized (the claim asserts `initialized()` is false there; the zero top
byte is not the all-ones sentinel, and the fresh shadow byte alone already
makes `initialized()` true). -/
theorem C7_counterexample :
    RWLock.initialized (RWLock.from_existing 0) = true := by
  decide

/-- C7 amended: a lock over zeroed memory reads as initialized (not
uninitialized); after `set_init`, a `lock_read` followed by an `unlock_read`
both succeed and return the state bit-for-bit to the post-initialize state. -/
theorem C7_roundtrip :
    RWLock.initialized (RWLock.from_existing 0) = true
    ∧ (RWLock.lock_read (RWLock.set_init (RWLock.from_existing 0))).1 = .ok ()
    ∧ (RWLock.unlock_read
        (RWLock.lock_read (RWLock.set_init (RWLock.from_existing 0))).2).1 = .ok ()
    ∧ (RWLock.unlock_read
        (RWLock.lock_read (RWLock.set_init (RWLock.from_existing 0))).2).2
        = RWLock.set_init (RWLock.from_existing 0) := by
  decide

/-- C8 counterexample: on a locked lock (the post-`set_init` state, which the
code's `locked()` reports as locked), `spin` whose try counter reaches
`usize::MAX` still returns `Ok(true)` — not `Err(LockViolation)` as claimed;
the exhaustion check is only reached when `locked()` is false. -/
theorem C8_counterexample :
    RWLock.locked ⟨0, 0⟩ = true
    ∧ RWLock.spin ⟨0, 0⟩ (2^64 - 2) = (.ok true, RWLock.USIZE_MAX) := by
  decide

/-- C8 amended: `spin` stores `(tries + 1) % 2^64` into the try counter on
every call; whenever `locked()` is true it returns `Ok(true)` regardless of
the counter; when `locked()` is false it returns `Err(LockViolation)` exactly
when the incremented counter equals `usize::MAX`, and `Ok(false)` otherwise. -/
theorem C8_spin_spec (s : RWLock) (t : Nat) :
    (RWLock.spin s t).2 = (t + 1) % 2^64
    ∧ (RWLock.locked s = true → (RWLock.spin s t).1 = .ok true)
    ∧ (RWLock.locked s = false → (t + 1) % 2^64 = RWLock.USIZE_MAX →
        (RWLock.spin s t).1 = .error .LockViolation)
    ∧ (RWLock.locked s = false → (t + 1) % 2^64 ≠ RWLock.USIZE_MAX →
        (RWLock.spin s t).1 = .ok false) := by
  unfold RWLock.spin
  by_cases hl : RWLock.locked s <;>
    by_cases ht : (t + 1) % 18446744073709551616 = RWLock.USIZE_MAX <;>
    simp [hl, ht]

theorem C8_spin_spec_witness :
    (RWLock.spin ⟨0, 0⟩ 5).1 = .ok true
    ∧ (RWLock.spin (RWLock.from_raw 0) (2^64 - 2)).1 = .error .LockViolation
    ∧ (RWLock.spin (RWLock.from_raw 0) 7).1 = .ok false :=
  ⟨(C8_spin_spec ⟨0, 0⟩ 5).2.1 (by decide),
   (C8_spin_spec (RWLock.from_raw 0) (2^64 - 2)).2.2.1 (by decide) (by decide),
   (C8_spin_spec (RWLock.from_raw 0) 7).2.2.2 (by decide) (by decide)⟩

/-! ### Per-step preservation facts for single-instance traces -/

lemma initialized_of_shadow (s : RWLock) (h : s.current_lock < 255) :
    RWLock.initialized s = true := by
  unfold RWLock.initialized
  have : decide (s.current_lock < 255) = true := by simpa using h
  simp [this]

lemma step_preserves (s : RWLock) (h32 : s.chunk < 2^32) (h255 : s.current_lock < 255)
    (o : Op) :
    (applyOp o s).1 ≠ .error .Uninitialized
    ∧ (applyOp o s).2.chunk < 2^32
    ∧ (applyOp o s).2.current_lock < 255 := by
  obtain ⟨c, cl⟩ := s
  dsimp only at h32 h255
  have hc : c = 2^24 * (c / 2^24) + c % 2^24 := by omega
  set h := c / 2^24 with hdef1
  set l := c % 2^24 with hdef2
  have hh : h < 256 := by omega
  have hl : l < 2^24 := by omega
  have hcl : cl < 256 := by omega
  rw [hc]
  cases o with
  | lockRead =>
    dsimp only [applyOp]
    rw [lock_read_decomp h l cl hh hl hcl]
    have hA : ¬(h = 255 ∧ cl = 255) := by omega
    rw [if_neg hA]
    by_cases hB : 128 ≤ h ∨ 128 ≤ cl
    · rw [if_pos hB]
      refine ⟨by simp, ?_, ?_⟩ <;> dsimp only <;> omega
    · rw [if_neg hB]
      by_cases hC : l = 2^24 - 1 ∨ cl = 127
      · rw [if_pos hC]
        refine ⟨by simp, ?_, ?_⟩ <;> dsimp only <;> omega
      · rw [if_neg hC]
        refine ⟨by simp, ?_, ?_⟩ <;> dsimp only <;> omega
  | unlockRead =>
    dsimp only [applyOp]
    rw [unlock_read_decomp h l cl hh hl hcl]
    have hA : ¬(h = 255 ∧ cl = 255) := by omega
    rw [if_neg hA]
    by_cases hB : 128 ≤ h ∨ 128 ≤ cl
    · rw [if_pos hB]
      refine ⟨by simp, ?_, ?_⟩ <;> dsimp only <;> omega
    · rw [if_neg hB]
      by_cases hC : l = 0 ∨ cl = 0
      · rw [if_pos hC]
        refine ⟨by simp, ?_, ?_⟩ <;> dsimp only <;> omega
      · rw [if_neg hC]
        refine ⟨by simp, ?_, ?_⟩ <;> dsimp only <;> omega
  | lockWrite =>
    dsimp only [applyOp]
    rw [lock_write_decomp h l cl hh hl hcl]
    have hA : ¬(h = 255 ∧ cl = 255) := by omega
    rw [if_neg hA]
    by_cases hB : 128 ≤ h ∨ 128 ≤ cl
    · rw [if_pos hB]
      refine ⟨by simp, ?_, ?_⟩ <;> dsimp only <;> omega
    · rw [if_neg hB]
      by_cases hC : 0 < l ∨ 0 < cl % 128
      · rw [if_pos hC]
        refine ⟨by simp, ?_, ?_⟩ <;> dsimp only <;> omega
      · rw [if_neg hC]
        refine ⟨by simp, ?_, ?_⟩ <;> dsimp only <;> omega
  | unlockWrite =>
    dsimp only [applyOp]
    rw [unlock_write_decomp h l cl hh hl hcl]
    by_cases hA : h < 128 ∧ cl < 128
    · rw [if_pos hA]
      refine ⟨by simp, ?_, ?_⟩ <;> dsimp only <;> omega
    · rw [if_neg hA]
      have hB : ¬(h = 255 ∧ cl = 255) := by omega
      rw [if_neg hB]
      by_cases hC : cl < 128
      · rw [if_pos hC]
        refine ⟨by simp, ?_, ?_⟩ <;> dsimp only <;> omega
      · rw [if_neg hC]
        refine ⟨by simp, ?_, ?_⟩
        · dsimp only
          by_cases hD : 128 ≤ h
          · rw [if_pos hD]
            omega
          · rw [if_neg hD]
            omega
        · dsimp only
          omega

lemma foldl_preserves (evs : List Ev) (s : RWLock) (h32 : s.chunk < 2^32)
    (h255 : s.current_lock < 255) :
    (evs.foldl evStep s).chunk < 2^32 ∧ (evs.foldl evStep s).current_lock < 255 := by
  induction evs generalizing s with
  | nil => exact ⟨h32, h255⟩
  | cons e rest ih =>
    cases e with
    | op o =>
      exact ih (applyOp o s).2 (step_preserves s h32 h255 o).2.1 (step_preserves s h32 h255 o).2.2
    | env m =>
      exact ih ⟨m % 2^32, s.current_lock⟩ (by dsimp only; omega) h255

/-- C10: any instance built by `from_existing` or `from_raw` starts with a
zero shadow byte, hence reads as initialized no matter what the shared word
holds (even the all-ones sentinel `from_raw` just stored); and along any
sequence of its own lock operations interleaved with arbitrary rewrites of
the shared word by other instances, it stays initialized and none of its
operations (nor `spin`) can ever return `Err(Uninitialized)`. -/
theorem C10_never_uninitialized (mem : Nat) (evs : List Ev) (o : Op) (t : Nat) :
    (RWLock.from_existing mem).current_lock = 0
    ∧ (RWLock.from_raw mem).current_lock = 0
    ∧ RWLock.initialized (RWLock.from_existing mem) = true
    ∧ RWLock.initialized (RWLock.from_raw mem) = true
    ∧ RWLock.initialized (evs.foldl evStep (RWLock.from_existing mem)) = true
    ∧ (applyOp o (evs.foldl evStep (RWLock.from_existing mem))).1 ≠ .error .Uninitialized
    ∧ RWLock.initialized (evs.foldl evStep (RWLock.from_raw mem)) = true
    ∧ (applyOp o (evs.foldl evStep (RWLock.from_raw mem))).1 ≠ .error .Uninitialized
    ∧ (RWLock.spin (evs.foldl evStep (RWLock.from_existing mem)) t).1
        ≠ .error .Uninitialized := by
  have hex32 : (RWLock.from_existing mem).chunk < 2^32 := by
    show mem % 2^32 < 2^32
    omega
  have hex255 : (RWLock.from_existing mem).current_lock < 255 := by
    show (0 : Nat) < 255
    omega
  have hraw32 : (RWLock.from_raw mem).chunk < 2^32 := by
    show RWLock.INITIALIZE_MASK < 2^32
    decide
  have hraw255 : (RWLock.from_raw mem).current_lock < 255 := by
    show (0 : Nat) < 255
    decide
  have hfex := foldl_preserves evs (RWLock.from_existing mem) hex32 hex255
  have hfraw := foldl_preserves evs (RWLock.from_raw mem) hraw32 hraw255
  refine ⟨rfl, rfl, initialized_of_shadow _ hex255, initialized_of_shadow _ hraw255,
    initialized_of_shadow _ hfex.2,
    (step_preserves _ hfex.1 hfex.2 o).1,
    initialized_of_shadow _ hfraw.2,
    (step_preserves _ hfraw.1 hfraw.2 o).1, ?_⟩
  unfold RWLock.spin
  by_cases h1 : RWLock.locked (evs.foldl evStep (RWLock.from_existing mem))
  · simp [h1]
  · by_cases h2 : (t + 1) % 18446744073709551616 = RWLock.USIZE_MAX
    · simp [h1, h2]
    · simp [h1, h2]

lemma read_step_bounds (s : RWLock) (h32 : s.chunk < 2^32) (h127 : s.current_lock ≤ 127)
    (o : Op) (ho : o = Op.lockRead ∨ o = Op.unlockRead) :
    (applyOp o s).2.chunk < 2^32 ∧ (applyOp o s).2.current_lock ≤ 127 := by
  obtain ⟨c, cl⟩ := s
  dsimp only at h32 h127
  have hc : c = 2^24 * (c / 2^24) + c % 2^24 := by omega
  set h := c / 2^24 with hdef1
  set l := c % 2^24 with hdef2
  have hh : h < 256 := by omega
  have hl : l < 2^24 := by omega
  have hcl : cl < 256 := by omega
  rw [hc]
  rcases ho with ho | ho <;> subst ho <;> dsimp only [applyOp]
  · rw [lock_read_decomp h l cl hh hl hcl]
    by_cases hA : h = 255 ∧ cl = 255
    · rw [if_pos hA]
      exact ⟨by dsimp only; omega, by dsimp only; omega⟩
    · rw [if_neg hA]
      by_cases hB : 128 ≤ h ∨ 128 ≤ cl
      · rw [if_pos hB]
        exact ⟨by dsimp only; omega, by dsimp only; omega⟩
      · rw [if_neg hB]
        by_cases hC : l = 2^24 - 1 ∨ cl = 127
        · rw [if_pos hC]
          exact ⟨by dsimp only; omega, by dsimp only; omega⟩
        · rw [if_neg hC]
          exact ⟨by dsimp only; omega, by dsimp only; omega⟩
  · rw [unlock_read_decomp h l cl hh hl hcl]
    by_cases hA : h = 255 ∧ cl = 255
    · rw [if_pos hA]
      exact ⟨by dsimp only; omega, by dsimp only; omega⟩
    · rw [if_neg hA]
      by_cases hB : 128 ≤ h ∨ 128 ≤ cl
      · rw [if_pos hB]
        exact ⟨by dsimp only; omega, by dsimp only; omega⟩
      · rw [if_neg hB]
        by_cases hC : l = 0 ∨ cl = 0
        · rw [if_pos hC]
          exact ⟨by dsimp only; omega, by dsimp only; omega⟩
        · rw [if_neg hC]
          exact ⟨by dsimp only; omega, by dsimp only; omega⟩

lemma read_trace_bounds (ops : List Op) (s : RWLock) (h32 : s.chunk < 2^32)
    (h127 : s.current_lock ≤ 127)
    (hops : ∀ o ∈ ops, o = Op.lockRead ∨ o = Op.unlockRead) :
    (applyOps ops s).chunk < 2^32 ∧ (applyOps ops s).current_lock ≤ 127 := by
  induction ops generalizing s with
  | nil => exact ⟨h32, h127⟩
  | cons o rest ih =>
    have ho := hops o (by simp)
    have hs := read_step_bounds s h32 h127 o ho
    simp only [applyOps, List.foldl_cons]
    exact ih (applyOp o s).2 hs.1 hs.2 (fun o2 ho2 => hops o2 (by simp [ho2]))

/-- C9: along any sequence of `lock_read`/`unlock_read` calls on one instance
(starting with shadow byte within [0,127] over a valid 32-bit word), the local
shadow read count stays within [0,127]; a successful `lock_read` increments
the shared reader count by one and happens only below the 2^24-1 cap and with
the shared write-lock flag clear; a successful `unlock_read` decrements the
shared reader count by one and happens only when it is nonzero (never below
zero); an attempt that would cross either bound returns an error with the
state unchanged, rather than panicking or wrapping. -/
theorem C9_read_counter_invariant (s : RWLock) (h32 : s.chunk < 2^32)
    (h127 : s.current_lock ≤ 127) :
    (∀ ops : List Op, (∀ o ∈ ops, o = Op.lockRead ∨ o = Op.unlockRead) →
      (applyOps ops s).current_lock ≤ 127)
    ∧ ((RWLock.lock_read s).1 = .ok () →
        RWLock.sharedReaders s < 2^24 - 1
        ∧ s.chunk &&& RWLock.WRITE_LOCK_MASK = 0
        ∧ RWLock.sharedReaders (RWLock.lock_read s).2 = RWLock.sharedReaders s + 1
        ∧ (RWLock.lock_read s).2.current_lock = s.current_lock + 1)
    ∧ ((RWLock.lock_read s).1 ≠ .ok () → (RWLock.lock_read s).2 = s)
    ∧ ((RWLock.unlock_read s).1 = .ok () →
        1 ≤ RWLock.sharedReaders s
        ∧ RWLock.sharedReaders (RWLock.unlock_read s).2 + 1 = RWLock.sharedReaders s
        ∧ (RWLock.unlock_read s).2.current_lock + 1 = s.current_lock)
    ∧ ((RWLock.unlock_read s).1 ≠ .ok () → (RWLock.unlock_read s).2 = s)
    ∧ (s.current_lock = 127 → (RWLock.lock_read s).1 ≠ .ok ())
    ∧ (RWLock.sharedReaders s = 2^24 - 1 → (RWLock.lock_read s).1 ≠ .ok ())
    ∧ (s.current_lock = 0 → (RWLock.unlock_read s).1 ≠ .ok ())
    ∧ (RWLock.sharedReaders s = 0 → (RWLock.unlock_read s).1 ≠ .ok ()) := by
  refine ⟨fun ops hops => (read_trace_bounds ops s h32 h127 hops).2, ?_⟩
  obtain ⟨c, cl⟩ := s
  dsimp only at h32 h127
  have hc : c = 2^24 * (c / 2^24) + c % 2^24 := by omega
  set h := c / 2^24 with hdef1
  set l := c % 2^24 with hdef2
  have hh : h < 256 := by omega
  have hl : l < 2^24 := by omega
  have hcl : cl < 256 := by omega
  rw [hc]
  rw [sharedReaders_decomp h l cl hl, lock_read_decomp h l cl hh hl hcl,
    unlock_read_decomp h l cl hh hl hcl, and_write_mask h l hl, u8_and_128 h hh]
  have hA : ¬(h = 255 ∧ cl = 255) := by omega
  rw [if_neg hA, if_neg hA]
  dsimp only
  refine ⟨?_, ?_, ?_, ?_, ?_, ?_, ?_, ?_⟩
  · intro hok
    by_cases hB : 128 ≤ h ∨ 128 ≤ cl
    · rw [if_pos hB] at hok
      simp at hok
    · rw [if_neg hB] at hok
      by_cases hC : l = 2^24 - 1 ∨ cl = 127
      · rw [if_pos hC] at hok
        simp at hok
      · rw [if_neg hB, if_neg hC]
        dsimp only
        rw [sharedReaders_decomp h (l + 1) (cl + 1) (by omega),
          if_neg (by omega : ¬(128 ≤ h))]
        refine ⟨by omega, by omega, rfl, rfl⟩
  · intro hne
    by_cases hB : 128 ≤ h ∨ 128 ≤ cl
    · rw [if_pos hB]
    · rw [if_neg hB] at hne ⊢
      by_cases hC : l = 2^24 - 1 ∨ cl = 127
      · rw [if_pos hC]
      · rw [if_neg hC] at hne
        simp at hne
  · intro hok
    by_cases hB : 128 ≤ h ∨ 128 ≤ cl
    · rw [if_pos hB] at hok
      simp at hok
    · rw [if_neg hB] at hok
      by_cases hC : l = 0 ∨ cl = 0
      · rw [if_pos hC] at hok
        simp at hok
      · rw [if_neg hB, if_neg hC]
        dsimp only
        rw [sharedReaders_decomp h (l - 1) (cl - 1) (by omega)]
        refine ⟨by omega, by omega, by omega⟩
  · intro hne
    by_cases hB : 128 ≤ h ∨ 128 ≤ cl
    · rw [if_pos hB]
    · rw [if_neg hB] at hne ⊢
      by_cases hC : l = 0 ∨ cl = 0
      · rw [if_pos hC]
      · rw [if_neg hC] at hne
        simp at hne
  · intro hx
    by_cases hB : 128 ≤ h ∨ 128 ≤ cl
    · rw [if_pos hB]
      simp
    · rw [if_neg hB, if_pos (show l = 2^24 - 1 ∨ cl = 127 by omega)]
      simp
  · intro hx
    by_cases hB : 128 ≤ h ∨ 128 ≤ cl
    · rw [if_pos hB]
      simp
    · rw [if_neg hB, if_pos (show l = 2^24 - 1 ∨ cl = 127 by omega)]
      simp
  · intro hx
    by_cases hB : 128 ≤ h ∨ 128 ≤ cl
    · rw [if_pos hB]
      simp
    · rw [if_neg hB, if_pos (show l = 0 ∨ cl = 0 by omega)]
      simp
  · intro hx
    by_cases hB : 128 ≤ h ∨ 128 ≤ cl
    · rw [if_pos hB]
      simp
    · rw [if_neg hB, if_pos (show l = 0 ∨ cl = 0 by omega)]
      simp

/-! ### The global invariant tying the shared word to all the shadow bytes -/

lemma sysInv_of_fields {n : Nat} (ch : Nat) (ls : Fin n → Nat) (hb r : Nat)
    (hhb : hb = 0 ∨ hb = 128) (hr : r < 2^24) (hch : ch = 2^24 * hb + r)
    (hsum : r = ∑ j, ls j % 128) (hshape : ∀ j, ls j ≤ 127 ∨ ls j = 128)
    (hzero : hb = 0 → ∀ j, ls j ≤ 127)
    (huniq : ∀ j k, ls j = 128 → ls k = 128 → j = k) :
    SysInv (⟨ch, ls⟩ : SysState n) :=
  ⟨hb, r, hhb, hr, hch, hsum, hshape, hzero, huniq⟩

lemma sum_update_mod {n : Nat} (ls : Fin n → Nat) (i : Fin n) (v : Nat) :
    ∑ j, (Function.update ls i v) j % 128
      = v % 128 + ∑ j in Finset.univ.erase i, ls j % 128 := by
  have hfun : (fun j => Function.update ls i v j % 128)
      = Function.update (fun j => ls j % 128) i (v % 128) := by
    funext j
    by_cases hj : j = i
    · subst hj
      simp
    · simp [Function.update_noteq hj]
  calc ∑ j, (Function.update ls i v) j % 128
      = ∑ j, Function.update (fun j => ls j % 128) i (v % 128) j := by rw [hfun]
    _ = v % 128 + ∑ j in Finset.univ \ {i}, ls j % 128 :=
        Finset.sum_update_of_mem (Finset.mem_univ i) _ _
    _ = v % 128 + ∑ j in Finset.univ.erase i, ls j % 128 := by
        rw [Finset.sdiff_singleton_eq_erase]

lemma sysInv_init (n : Nat) : SysInv (SysState.init n) := by
  refine ⟨0, 0, .inl rfl, by omega, rfl, ?_, ?_, ?_, ?_⟩
  · simp [SysState.init]
  · intro j
    left
    show (0 : Nat) ≤ 127
    omega
  · intro _ j
    show (0 : Nat) ≤ 127
    omega
  · intro j k hj hk
    exfalso
    exact absurd hj (by simp [SysState.init])

lemma sysInv_step {n : Nat} (g : SysState n) (hg : SysInv g) (i : Fin n) (o : Op) :
    SysInv (g.step i o).2 := by
  obtain ⟨hb, r, hhb, hr, hchunk, hsum, hshape, hzero, huniq⟩ := hg
  have hcl256 : g.locals i < 256 := by rcases hshape i with hx | hx <;> omega
  have hhb256 : hb < 256 := by rcases hhb with hx | hx <;> omega
  have hsplit : ∑ j, g.locals j % 128
      = g.locals i % 128 + ∑ j in Finset.univ.erase i, g.locals j % 128 :=
    (Finset.add_sum_erase _ _ (Finset.mem_univ i)).symm
  have hview : g.view i = ⟨2^24 * hb + r, g.locals i⟩ := by
    show (⟨g.chunk, g.locals i⟩ : RWLock) = _
    rw [hchunk]
  unfold SysState.step
  rw [hview]
  cases o with
  | lockRead =>
    dsimp only [applyOp]
    rw [lock_read_decomp hb r (g.locals i) hhb256 hr hcl256]
    have hA : ¬(hb = 255 ∧ g.locals i = 255) := by omega
    rw [if_neg hA]
    by_cases hB : 128 ≤ hb ∨ 128 ≤ g.locals i
    · rw [if_pos hB]
      dsimp only
      rw [Function.update_eq_self]
      exact ⟨hb, r, hhb, hr, rfl, hsum, hshape, hzero, huniq⟩
    · rw [if_neg hB]
      by_cases hC : r = 2^24 - 1 ∨ g.locals i = 127
      · rw [if_pos hC]
        dsimp only
        rw [Function.update_eq_self]
        exact ⟨hb, r, hhb, hr, rfl, hsum, hshape, hzero, huniq⟩
      · rw [if_neg hC]
        dsimp only
        have hb0 : hb = 0 := by omega
        subst hb0
        refine sysInv_of_fields _ _ 0 (r + 1) (.inl rfl) (by omega) (by omega) ?_ ?_ ?_ ?_
        · rw [sum_update_mod]
          omega
        · intro j
          by_cases hj : j = i
          · subst hj
            rw [Function.update_same]
            omega
          · rw [Function.update_noteq hj]
            exact hshape j
        · intro _ j
          by_cases hj : j = i
          · subst hj
            rw [Function.update_same]
            omega
          · rw [Function.update_noteq hj]
            exact hzero rfl j
        · intro j k hj hk
          exfalso
          by_cases hj2 : j = i
          · subst hj2
            rw [Function.update_same] at hj
            omega
          · rw [Function.update_noteq hj2] at hj
            have := hzero rfl j
            omega
  | unlockRead =>
    dsimp only [applyOp]
    rw [unlock_read_decomp hb r (g.locals i) hhb256 hr hcl256]
    have hA : ¬(hb = 255 ∧ g.locals i = 255) := by omega
    rw [if_neg hA]
    by_cases hB : 128 ≤ hb ∨ 128 ≤ g.locals i
    · rw [if_pos hB]
      dsimp only
      rw [Function.update_eq_self]
      exact ⟨hb, r, hhb, hr, rfl, hsum, hshape, hzero, huniq⟩
    · rw [if_neg hB]
      by_cases hC : r = 0 ∨ g.locals i = 0
      · rw [if_pos hC]
        dsimp only
        rw [Function.update_eq_self]
        exact ⟨hb, r, hhb, hr, rfl, hsum, hshape, hzero, huniq⟩
      · rw [if_neg hC]
        dsimp only
        have hb0 : hb = 0 := by omega
        subst hb0
        refine sysInv_of_fields _ _ 0 (r - 1) (.inl rfl) (by omega) (by omega) ?_ ?_ ?_ ?_
        · rw [sum_update_mod]
          omega
        · intro j
          by_cases hj : j = i
          · subst hj
            rw [Function.update_same]
            omega
          · rw [Function.update_noteq hj]
            exact hshape j
        · intro _ j
          by_cases hj : j = i
          · subst hj
            rw [Function.update_same]
            omega
          · rw [Function.update_noteq hj]
            exact hzero rfl j
        · intro j k hj hk
          exfalso
          by_cases hj2 : j = i
          · subst hj2
            rw [Function.update_same] at hj
            omega
          · rw [Function.update_noteq hj2] at hj
            have := hzero rfl j
            omega
  | lockWrite =>
    dsimp only [applyOp]
    rw [lock_write_decomp hb r (g.locals i) hhb256 hr hcl256]
    have hA : ¬(hb = 255 ∧ g.locals i = 255) := by omega
    rw [if_neg hA]
    by_cases hB : 128 ≤ hb ∨ 128 ≤ g.locals i
    · rw [if_pos hB]
      dsimp only
      rw [Function.update_eq_self]
      exact ⟨hb, r, hhb, hr, rfl, hsum, hshape, hzero, huniq⟩
    · rw [if_neg hB]
      by_cases hC : 0 < r ∨ 0 < g.locals i % 128
      · rw [if_pos hC]
        dsimp only
        rw [Function.update_eq_self]
        exact ⟨hb, r, hhb, hr, rfl, hsum, hshape, hzero, huniq⟩
      · rw [if_neg hC]
        dsimp only
        have hb0 : hb = 0 := by omega
        have hcl0 : g.locals i = 0 := by omega
        subst hb0
        refine sysInv_of_fields _ _ 128 r (.inr rfl) hr (by omega) ?_ ?_ ?_ ?_
        · rw [sum_update_mod]
          omega
        · intro j
          by_cases hj : j = i
          · subst hj
            rw [Function.update_same]
            right
            omega
          · rw [Function.update_noteq hj]
            exact hshape j
        · intro hx
          exact absurd hx (by omega)
        · intro j k hj hk
          by_cases hj2 : j = i
          · by_cases hk2 : k = i
            · rw [hj2, hk2]
            · rw [Function.update_noteq hk2] at hk
              have := hzero rfl k
              omega
          · rw [Function.update_noteq hj2] at hj
            have := hzero rfl j
            omega
  | unlockWrite =>
    dsimp only [applyOp]
    rw [unlock_write_decomp hb r (g.locals i) hhb256 hr hcl256]
    by_cases hA : hb < 128 ∧ g.locals i < 128
    · rw [if_pos hA]
      dsimp only
      rw [Function.update_eq_self]
      exact ⟨hb, r, hhb, hr, rfl, hsum, hshape, hzero, huniq⟩
    · rw [if_neg hA]
      have hB : ¬(hb = 255 ∧ g.locals i = 255) := by omega
      rw [if_neg hB]
      by_cases hC : g.locals i < 128
      · rw [if_pos hC]
        dsimp only
        rw [Function.update_eq_self]
        exact ⟨hb, r, hhb, hr, rfl, hsum, hshape, hzero, huniq⟩
      · rw [if_neg hC]
        dsimp only
        have hcl128 : g.locals i = 128 := by rcases hshape i with hx | hx <;> omega
        have hb128 : hb = 128 := by
          rcases hhb with hx | hx
          · exfalso
            have := hzero hx i
            omega
          · exact hx
        subst hb128
        rw [if_pos (by omega : (128 : Nat) ≤ 128)]
        refine sysInv_of_fields _ _ 0 r (.inl rfl) hr (by omega) ?_ ?_ ?_ ?_
        · rw [sum_update_mod]
          omega
        · intro j
          by_cases hj : j = i
          · subst hj
            rw [Function.update_same]
            omega
          · rw [Function.update_noteq hj]
            exact hshape j
        · intro _ j
          by_cases hj : j = i
          · subst hj
            rw [Function.update_same]
            omega
          · rw [Function.update_noteq hj]
            rcases hshape j with hx | hx
            · omega
            · exfalso
              exact hj (huniq j i hx hcl128)
        · intro j k hj hk
          exfalso
          by_cases hj2 : j = i
          · subst hj2
            rw [Function.update_same] at hj
            omega
          · rw [Function.update_noteq hj2] at hj
            exact hj2 (huniq j i hj hcl128)

lemma reachable_sysInv {n : Nat} {g : SysState n} (hg : Reachable g) : SysInv g := by
  induction hg with
  | init => exact sysInv_init n
  | step hg i o ih => exact sysInv_step _ ih i o

/-- C1: in every state reachable by any interleaving of lock and unlock calls
from any number of instances over one shared word, a `lock_write` that returns
`Ok` executes while `readlocked()` is false for every instance (and leaves it
false), and a `lock_read` that returns `Ok` executes while `writelocked()` is
false for every instance (and leaves it false). -/
theorem C1_mutual_exclusion {n : Nat} (g : SysState n) (hg : Reachable g) (i : Fin n) :
    ((g.step i Op.lockWrite).1 = .ok () →
      ∀ j, RWLock.readlocked (g.view j) = false
        ∧ RWLock.readlocked ((g.step i Op.lockWrite).2.view j) = false)
    ∧ ((g.step i Op.lockRead).1 = .ok () →
      ∀ j, RWLock.writelocked (g.view j) = false
        ∧ RWLock.writelocked ((g.step i Op.lockRead).2.view j) = false) := by
  obtain ⟨hb, r, hhb, hr, hchunk, hsum, hshape, hzero, huniq⟩ := reachable_sysInv hg
  have hcl256 : g.locals i < 256 := by rcases hshape i with hx | hx <;> omega
  have hhb256 : hb < 256 := by rcases hhb with hx | hx <;> omega
  have hloc256 : ∀ j, g.locals j < 256 := fun j => by rcases hshape j with hx | hx <;> omega
  have hview : ∀ j, g.view j = ⟨2^24 * hb + r, g.locals j⟩ := fun j => by
    show (⟨g.chunk, g.locals j⟩ : RWLock) = _
    rw [hchunk]
  have hA : ¬(hb = 255 ∧ g.locals i = 255) := by omega
  constructor
  · intro hok
    have hok2 : (RWLock.lock_write ⟨2^24 * hb + r, g.locals i⟩).1 = .ok () := by
      have : (g.step i Op.lockWrite).1 = (RWLock.lock_write (g.view i)).1 := rfl
      rw [this, hview i] at hok
      exact hok
    rw [lock_write_decomp hb r (g.locals i) hhb256 hr hcl256, if_neg hA] at hok2
    by_cases hB : 128 ≤ hb ∨ 128 ≤ g.locals i
    · rw [if_pos hB] at hok2
      simp at hok2
    · rw [if_neg hB] at hok2
      by_cases hC : 0 < r ∨ 0 < g.locals i % 128
      · rw [if_pos hC] at hok2
        simp at hok2
      · have hr0 : r = 0 := by omega
        have hcli0 : g.locals i = 0 := by omega
        have hs0 : ∑ j, g.locals j % 128 = 0 := by omega
        have hzero_all : ∀ j, g.locals j % 128 = 0 := fun j =>
          (Finset.sum_eq_zero_iff.mp hs0) j (Finset.mem_univ j)
        have heq : RWLock.lock_write ⟨2^24 * hb + r, g.locals i⟩
            = (.ok (), ⟨2^24 * (hb + 128) + r, g.locals i + 128⟩) := by
          rw [lock_write_decomp hb r (g.locals i) hhb256 hr hcl256, if_neg hA, if_neg hB,
            if_neg hC]
        have hpost : ∀ j, (g.step i Op.lockWrite).2.view j
            = ⟨2^24 * (hb + 128) + r, Function.update g.locals i (g.locals i + 128) j⟩ := by
          intro j
          show (⟨(applyOp Op.lockWrite (g.view i)).2.chunk,
            Function.update g.locals i (applyOp Op.lockWrite (g.view i)).2.current_lock j⟩
              : RWLock) = _
          rw [hview i]
          show (⟨(RWLock.lock_write ⟨2^24 * hb + r, g.locals i⟩).2.chunk,
            Function.update g.locals i
              (RWLock.lock_write ⟨2^24 * hb + r, g.locals i⟩).2.current_lock j⟩ : RWLock) = _
          rw [heq]
        intro j
        constructor
        · rw [hview j, readlocked_decomp hb r (g.locals j) hr (hloc256 j)]
          have h1 : ¬(0 < r) := by omega
          have h2 : ¬(0 < g.locals j % 128) := by
            have := hzero_all j
            omega
          simp [h1, h2]
        · rw [hpost j]
          have hupd256 : Function.update g.locals i (g.locals i + 128) j < 256 := by
            by_cases hj : j = i
            · subst hj
              rw [Function.update_same]
              omega
            · rw [Function.update_noteq hj]
              exact hloc256 j
          rw [readlocked_decomp (hb + 128) r _ hr hupd256]
          have h1 : ¬(0 < r) := by omega
          have h2 : ¬(0 < Function.update g.locals i (g.locals i + 128) j % 128) := by
            by_cases hj : j = i
            · subst hj
              rw [Function.update_same]
              omega
            · rw [Function.update_noteq hj]
              have := hzero_all j
              omega
          simp [h1, h2]
  · intro hok
    have hok2 : (RWLock.lock_read ⟨2^24 * hb + r, g.locals i⟩).1 = .ok () := by
      have : (g.step i Op.lockRead).1 = (RWLock.lock_read (g.view i)).1 := rfl
      rw [this, hview i] at hok
      exact hok
    rw [lock_read_decomp hb r (g.locals i) hhb256 hr hcl256, if_neg hA] at hok2
    by_cases hB : 128 ≤ hb ∨ 128 ≤ g.locals i
    · rw [if_pos hB] at hok2
      simp at hok2
    · rw [if_neg hB] at hok2
      by_cases hC : r = 2^24 - 1 ∨ g.locals i = 127
      · rw [if_pos hC] at hok2
        simp at hok2
      · have hb0 : hb = 0 := by omega
        have heq : RWLock.lock_read ⟨2^24 * hb + r, g.locals i⟩
            = (.ok (), ⟨2^24 * hb + (r + 1), g.locals i + 1⟩) := by
          rw [lock_read_decomp hb r (g.locals i) hhb256 hr hcl256, if_neg hA, if_neg hB,
            if_neg hC]
        have hpost : ∀ j, (g.step i Op.lockRead).2.view j
            = ⟨2^24 * hb + (r + 1), Function.update g.locals i (g.locals i + 1) j⟩ := by
          intro j
          show (⟨(applyOp Op.lockRead (g.view i)).2.chunk,
            Function.update g.locals i (applyOp Op.lockRead (g.view i)).2.current_lock j⟩
              : RWLock) = _
          rw [hview i]
          show (⟨(RWLock.lock_read ⟨2^24 * hb + r, g.locals i⟩).2.chunk,
            Function.update g.locals i
              (RWLock.lock_read ⟨2^24 * hb + r, g.locals i⟩).2.current_lock j⟩ : RWLock) = _
          rw [heq]
        intro j
        constructor
        · rw [hview j, writelocked_decomp hb r (g.locals j) hhb256 hr (hloc256 j)]
          have h1 : ¬(128 ≤ hb) := by omega
          have h2 : ¬(128 ≤ g.locals j) := by
            have := hzero hb0 j
            omega
          simp [h1, h2]
        · rw [hpost j]
          have hupd256 : Function.update g.locals i (g.locals i + 1) j < 256 := by
            by_cases hj : j = i
            · subst hj
              rw [Function.update_same]
              omega
            · rw [Function.update_noteq hj]
              exact hloc256 j
          rw [writelocked_decomp hb (r + 1) _ hhb256 (by omega) hupd256]
          have h1 : ¬(128 ≤ hb) := by omega
          have h2 : ¬(128 ≤ Function.update g.locals i (g.locals i + 1) j) := by
            by_cases hj : j = i
            · subst hj
              rw [Function.update_same]
              omega
            · rw [Function.update_noteq hj]
              have := hzero hb0 j
              omega
          simp [h1, h2]

theorem C1_mutual_exclusion_witness :
    RWLock.writelocked ((SysState.init 2).view 0) = false
    ∧ RWLock.writelocked ((SysState.init 2).view 1) = false
    ∧ RWLock.writelocked (((SysState.init 2).step 0 Op.lockRead).2.view 0) = false
    ∧ RWLock.writelocked (((SysState.init 2).step 0 Op.lockRead).2.view 1) = false :=
  have h := (C1_mutual_exclusion (SysState.init 2) Reachable.init 0).2 (by decide)
  ⟨(h 0).1, (h 1).1, (h 0).2, (h 1).2⟩

theorem C9_read_counter_invariant_witness :
    (applyOps [Op.lockRead, Op.unlockRead] ⟨0, 0⟩).current_lock ≤ 127
    ∧ (RWLock.sharedReaders ⟨5, 2⟩ < 2^24 - 1
        ∧ (⟨5, 2⟩ : RWLock).chunk &&& RWLock.WRITE_LOCK_MASK = 0
        ∧ RWLock.sharedReaders (RWLock.lock_read ⟨5, 2⟩).2 = RWLock.sharedReaders ⟨5, 2⟩ + 1
        ∧ (RWLock.lock_read ⟨5, 2⟩).2.current_lock = (⟨5, 2⟩ : RWLock).current_lock + 1)
    ∧ (RWLock.lock_read ⟨0, 127⟩).1 ≠ .ok ()
    ∧ (RWLock.unlock_read ⟨0, 0⟩).1 ≠ .ok () :=
  ⟨(C9_read_counter_invariant ⟨0, 0⟩ (by decide) (by decide)).1
      [Op.lockRead, Op.unlockRead] (by decide),
   (C9_read_counter_invariant ⟨5, 2⟩ (by decide) (by decide)).2.1 (by decide),
   (C9_read_counter_invariant ⟨0, 127⟩ (by decide) (by decide)).2.2.2.2.2.1 (by decide),
   (C9_read_counter_invariant ⟨0, 0⟩ (by decide) (by decide)).2.2.2.2.2.2.2.1 (by decide)⟩

theorem C10_never_uninitialized_witness :
    RWLock.initialized (RWLock.from_existing 0) = true
    ∧ RWLock.initialized (RWLock.from_raw 0) = true
    ∧ (applyOp Op.lockRead (([] : List Ev).foldl evStep (RWLock.from_existing 0))).1
        ≠ .error .Uninitialized :=
  have h := C10_never_uninitialized 0 [] Op.lockRead 0
  ⟨h.2.2.1, h.2.2.2.1, h.2.2.2.2.2.1⟩

end WinMMF
